import Mathlib

/-!
Verification of the snake game `src/snakev0.py`.

The game logic (`SnakeGame.reset`, `spawn_food`, `handle_input`, `update`, the
frame loop of `run`) is embedded as pure Lean functions over an explicit
`Game` state record.  Randomness (`random.randrange` draws inside
`spawn_food`) is modelled by an explicit stream `r : Nat → Pos` of drawn
cells; the retry loop returns the first draw not on the snake, which exists
by hypothesis.  Where a theorem only needs that *some* cell was supplied for
the food (and not the loop's guarantee), the drawn food cell is passed as an
explicit parameter (`updateWith`, `resetWith`), which the loop-based
versions (`updateSpawn`, `resetSpawn`) instantiate.

The waveform synthesizer (`SoundManager._make_sound`) is embedded over the
real numbers: Python float expressions become the corresponding real
expressions, `int(...)` truncation becomes `pyTrunc`, and Python 3's
`round` (round-half-to-even) becomes `pyRound`.
-/

namespace SnakeV0

/-- Grid-cell and pixel coordinates: integer pairs, as in the Python tuples. -/
abbrev Pos := ℤ × ℤ

/-- `self.cell_size = 20`. -/
def cellSize : ℤ := 20

/-- `self.grid_width = 600 // self.cell_size`. -/
def gridWidth : ℤ := 600 / cellSize

/-- `self.grid_height = 400 // self.cell_size`. -/
def gridHeight : ℤ := 400 / cellSize

/-- `self.fps = 60`. -/
def fps : ℕ := 60

/-- `self.move_rate = 10`. -/
def moveRate : ℕ := 10

/-- `self.frames_per_move = self.fps // self.move_rate`. -/
def framesPerMove : ℕ := fps / moveRate

/-- The game states: `'menu'`, `'playing'`, `'gameover'`. -/
inductive Mode where
  | menu
  | playing
  | gameover
deriving DecidableEq

/-- The logical keys the game distinguishes in `handle_input`.  `other`
stands for any key it does not react to. -/
inductive Key where
  | up
  | down
  | left
  | right
  | w
  | a
  | s
  | d
  | y
  | n
  | ret
  | other
deriving DecidableEq

/-- Pygame events the game distinguishes (besides `QUIT`, which terminates
the process): `KEYDOWN` with a key, `MOUSEBUTTONDOWN`, and any other event
type. -/
inductive Ev where
  | keydown (k : Key)
  | mousebuttondown
  | other
deriving DecidableEq

/-- The mutable state of `SnakeGame`: `self.snake`, `self.direction`,
`self.next_direction`, `self.food`, `self.score`, `self.state`,
`self.game_over`, `self.frame_count`, plus a flag recording that `_quit`
was invoked (after which the process is gone and no further transition
happens). -/
structure Game where
  snake : List Pos
  direction : Pos
  nextDirection : Pos
  food : Pos
  score : ℕ
  state : Mode
  gameOver : Bool
  frameCount : ℕ
  terminated : Bool
deriving DecidableEq

/-- The initial snake cell of `reset`:
`(self.grid_width // 2, self.grid_height // 2)`. -/
def startCell : Pos := (gridWidth / 2, gridHeight / 2)

/-- `SnakeGame.reset` with the food cell produced by `spawn_food` passed
explicitly: snake a single cell at the grid center, direction and pending
direction `(1, 0)`, score `0`, `game_over = False`, `frame_count = 0`.
`reset` does not touch `self.state`. -/
def resetWith (g : Game) (food : Pos) : Game :=
  { g with
    snake := [startCell]
    direction := (1, 0)
    nextDirection := (1, 0)
    food := food
    score := 0
    gameOver := false
    frameCount := 0 }

/-- The state after `SnakeGame.__init__`: `self.state = 'menu'` followed by
`self.reset()` (with the food cell drawn in that reset passed explicitly). -/
def initGame (food : Pos) : Game :=
  resetWith
    { snake := []
      direction := (1, 0)
      nextDirection := (1, 0)
      food := food
      score := 0
      state := Mode.menu
      gameOver := false
      frameCount := 0
      terminated := false } food

/-- `SnakeGame.spawn_food`: repeatedly draw a cell from the random stream
`r` and return the first draw that is not on the snake.  The hypothesis is
exactly the termination of the retry loop: some draw misses the snake. -/
def spawnFood (r : ℕ → Pos) (snake : List Pos) (h : ∃ n, r n ∉ snake) : Pos :=
  r (Nat.find h)

/-- `SnakeGame.reset` using the `spawn_food` retry loop over the draw
stream `r` (the loop samples against the freshly assigned single-cell
snake). -/
def resetSpawn (g : Game) (r : ℕ → Pos) (h : ∃ n, r n ∉ [startCell]) : Game :=
  resetWith g (spawnFood r [startCell] h)

/-- The new head computed in `SnakeGame.update`:
`(head[0] + self.direction[0], head[1] + self.direction[1])` where
`self.direction` has just been set to `self.next_direction` and
`head = self.snake[0]`. -/
def newHead (g : Game) : Pos :=
  (g.snake.headI.1 + g.nextDirection.1, g.snake.headI.2 + g.nextDirection.2)

/-- The collision test of `SnakeGame.update`, in source order:
`new_head in self.snake or not 0 <= new_head[0] < self.grid_width
or not 0 <= new_head[1] < self.grid_height`. -/
def hitsWallOrSelf (g : Game) : Prop :=
  newHead g ∈ g.snake ∨
    ¬(0 ≤ (newHead g).1 ∧ (newHead g).1 < gridWidth) ∨
    ¬(0 ≤ (newHead g).2 ∧ (newHead g).2 < gridHeight)

instance (g : Game) : Decidable (hitsWallOrSelf g) := by
  unfold hitsWallOrSelf
  infer_instance

/-- `SnakeGame.update` with the food cell a potential eat would draw passed
explicitly.  First `self.direction = self.next_direction`; then the
collision test (on collision `game_over = True`, `state = 'gameover'`, and
the move is not applied); otherwise the new head is prepended, and either
the food is eaten (score up, new food) or the tail is popped. -/
def updateWith (g : Game) (newFood : Pos) : Game :=
  let g1 := { g with direction := g.nextDirection }
  if hitsWallOrSelf g then
    { g1 with gameOver := true, state := Mode.gameover }
  else if newHead g = g.food then
    { g1 with snake := newHead g :: g.snake, score := g.score + 1, food := newFood }
  else
    { g1 with snake := (newHead g :: g.snake).dropLast }

/-- `SnakeGame.update` using the `spawn_food` retry loop: on an eat, the
loop samples against the snake with the new head already prepended.  The
draw is consumed only in the eat branch. -/
def updateSpawn (r : ℕ → Pos) (g : Game) (h : ∃ n, r n ∉ newHead g :: g.snake) : Game :=
  updateWith g (spawnFood r (newHead g :: g.snake) h)

/-- The keyboard vote block of `handle_input` for one `KEYDOWN` event while
playing: up/down only when the current vertical component is `0`,
left/right only when the current horizontal component is `0`. -/
def applyKeyVote (g : Game) (k : Key) : Game :=
  if (k = Key.up ∨ k = Key.w) ∧ g.direction.2 = 0 then
    { g with nextDirection := (0, -1) }
  else if (k = Key.down ∨ k = Key.s) ∧ g.direction.2 = 0 then
    { g with nextDirection := (0, 1) }
  else if (k = Key.left ∨ k = Key.a) ∧ g.direction.1 = 0 then
    { g with nextDirection := (-1, 0) }
  else if (k = Key.right ∨ k = Key.d) ∧ g.direction.1 = 0 then
    { g with nextDirection := (1, 0) }
  else g

/-- The menu / game-over transition block of `handle_input` for one event:
in the menu any keydown or mouse click starts a game; in game over `y` or
return restarts, `n` quits. -/
def eventPhase1 (f : Pos) (g : Game) (e : Ev) : Game :=
  match e with
  | Ev.keydown k =>
      if g.state = Mode.menu then resetWith { g with state := Mode.playing } f
      else if g.state = Mode.gameover then
        if k = Key.y ∨ k = Key.ret then resetWith { g with state := Mode.playing } f
        else if k = Key.n then { g with terminated := true }
        else g
      else g
  | Ev.mousebuttondown =>
      if g.state = Mode.menu then resetWith { g with state := Mode.playing } f else g
  | Ev.other => g

/-- The in-game keyboard block of `handle_input` for one event (a separate
`if` in the source, so it also sees the state just set by a menu
transition in the same event). -/
def eventPhase2 (g : Game) (e : Ev) : Game :=
  match e with
  | Ev.keydown k => if g.state = Mode.playing then applyKeyVote g k else g
  | _ => g

/-- Processing of one event of the `pygame.event.get()` loop in
`handle_input`.  Once `_quit` has run the process is gone, so a terminated
state absorbs everything. -/
def processEvent (f : Pos) (g : Game) (e : Ev) : Game :=
  if g.terminated then g else eventPhase2 (eventPhase1 f g e) e

/-- The whole event loop of `handle_input` over the polled event list
(`f` is the food cell a menu/game-over restart in this poll would draw). -/
def processEvents (g : Game) (evs : List Ev) (f : Pos) : Game :=
  evs.foldl (processEvent f) g

/-- The mouse vote of `handle_input`: the pointer position relative to the
head's pixel center, dominant axis first (`abs dx > abs dy` picks
horizontal), sign gives the direction. -/
def mouseVote (head : Pos) (mouse : ℤ × ℤ) : Pos :=
  let hpx := head.1 * cellSize + cellSize / 2
  let hpy := head.2 * cellSize + cellSize / 2
  let dx := mouse.1 - hpx
  let dy := mouse.2 - hpy
  if |dx| > |dy| then (if dx > 0 then 1 else -1, 0)
  else (0, if dy > 0 then 1 else -1)

/-- `SnakeGame.handle_input`: the event loop, then (while playing) the
mouse vote, accepted unless it is the exact reversal of the current
direction. -/
def handleInput (g : Game) (evs : List Ev) (mouse : ℤ × ℤ) (f : Pos) : Game :=
  let g1 := processEvents g evs f
  if g1.state = Mode.playing then
    let v := mouseVote g1.snake.headI mouse
    if ¬(v = (-g1.direction.1, -g1.direction.2)) then { g1 with nextDirection := v }
    else g1
  else g1

/-- One polled frame's worth of input for the main loop: the event list,
the pointer sample, the food cell a restart in this poll would draw, and
the food cell an eat in this frame's step would draw. -/
structure FrameIn where
  evs : List Ev
  mouse : ℤ × ℤ
  food1 : Pos
  food2 : Pos

/-- The move-timing block of `SnakeGame.run` after input handling: while
playing, `frame_count` is incremented and, on reaching
`frames_per_move`, zeroed with exactly one `update()`.  The second
component counts the `update()` calls of this frame. -/
def frameTick (g : Game) (food2 : Pos) : Game × ℕ :=
  if g.state = Mode.playing then
    let g2 := { g with frameCount := g.frameCount + 1 }
    if framesPerMove ≤ g2.frameCount then (updateWith { g2 with frameCount := 0 } food2, 1)
    else (g2, 0)
  else (g, 0)

/-- One iteration of the `while True` loop of `SnakeGame.run` (drawing has
no effect on the game state and is omitted): `handle_input`, then the
move-timing block. -/
def frameStep (g : Game) (i : FrameIn) : Game × ℕ :=
  frameTick (handleInput g i.evs i.mouse i.food1) i.food2

/-- Several consecutive iterations of the main loop, accumulating the
number of `update()` calls. -/
def runFrames : Game → List FrameIn → Game × ℕ
  | g, [] => (g, 0)
  | g, i :: t =>
      let q := frameStep g i
      let rest := runFrames q.1 t
      (rest.1, q.2 + rest.2)

/-- Game states reachable from process start by input polls and by
simulation steps taken while playing.  The food cells drawn by resets and
eats are arbitrary, so this over-approximates the states the program can
reach. -/
inductive Reachable : Game → Prop where
  | init : ∀ food, Reachable (initGame food)
  | poll : ∀ {g} (evs : List Ev) (mouse : ℤ × ℤ) (food : Pos),
      Reachable g → Reachable (handleInput g evs mouse food)
  | move : ∀ {g} (food : Pos),
      Reachable g → g.state = Mode.playing → Reachable (updateWith g food)

/-- The four unit direction vectors of the game. -/
def DirOK (d : Pos) : Prop :=
  d = (1, 0) ∨ d = (-1, 0) ∨ d = (0, 1) ∨ d = (0, -1)

instance (d : Pos) : Decidable (DirOK d) := by
  unfold DirOK
  infer_instance

/-- The direction-vote invariant: current and pending direction are unit
vectors and the pending one is never the exact reversal of the current
one. -/
def VoteInv (g : Game) : Prop :=
  DirOK g.direction ∧ DirOK g.nextDirection ∧
    g.nextDirection ≠ (-g.direction.1, -g.direction.2)

/-- A keyboard vote `v` the source accepts against current direction `d`. -/
def KeyVoteOK (d v : Pos) : Prop :=
  (v = (0, -1) ∧ d.2 = 0) ∨ (v = (0, 1) ∧ d.2 = 0) ∨
    (v = (-1, 0) ∧ d.1 = 0) ∨ (v = (1, 0) ∧ d.1 = 0)

/-- Snake well-formedness: pairwise distinct cells, length at least one. -/
def WFSnake (g : Game) : Prop :=
  g.snake.Nodup ∧ 1 ≤ g.snake.length

/-- Python's `int(x)` on a float: truncation toward zero. -/
noncomputable def pyTrunc (x : ℝ) : ℤ :=
  if 0 ≤ x then ⌊x⌋ else -⌊-x⌋

open Classical in
/-- Python 3's `round(x)` on a float: nearest integer, ties to even. -/
noncomputable def pyRound (x : ℝ) : ℤ :=
  if x - ⌊x⌋ < 1 / 2 then ⌊x⌋
  else if 1 / 2 < x - ⌊x⌋ then ⌊x⌋ + 1
  else if Even ⌊x⌋ then ⌊x⌋ else ⌊x⌋ + 1

/-- The mixer sample rate: `pygame.mixer.init(frequency=44100, ...)`. -/
def sampleRate : ℝ := 44100

open Classical in
/-- The value `val` computed for sample `i` in the loop of
`SoundManager._make_sound`, before the `int(val)` store:
`t = i / sample_rate`, decaying frequency if enabled, then the selected
waveform (any unrecognized shape falls through to the sine case). -/
noncomputable def waveVal (freq duration : ℝ) (shape : String) (decay : Bool)
    (maxAmp : ℤ) (rate : ℝ) (i : ℕ) : ℝ :=
  let t : ℝ := (i : ℝ) / rate
  let currentFreq : ℝ := if decay then freq * (1 - t / duration) else freq
  if shape = "square" then
    if Real.sin (2 * Real.pi * currentFreq * t) > 0 then (maxAmp : ℝ) else -(maxAmp : ℝ)
  else if shape = "sawtooth" then
    (maxAmp : ℝ) * (2 * (t * currentFreq - ⌊(0.5 : ℝ) + t * currentFreq⌋))
  else
    (maxAmp : ℝ) * Real.sin (2 * Real.pi * currentFreq * t)

/-- `SoundManager._make_sound`: `n_samples = int(round(duration * rate))`
samples (an empty buffer when that is zero or negative),
`max_amp = int(32767 * volume)`, and for each index the waveform value
stored as `int(val)`. -/
noncomputable def makeSound (freq duration volume : ℝ) (shape : String) (decay : Bool)
    (rate : ℝ) : List ℤ :=
  let nSamples : ℕ := (pyRound (duration * rate)).toNat
  let maxAmp : ℤ := pyTrunc (32767 * volume)
  (List.range nSamples).map (fun i => pyTrunc (waveVal freq duration shape decay maxAmp rate i))


/-- Iterated simulation steps with a fixed food draw (used to exhibit
concrete reachable states). -/
def movesN (f : Pos) : ℕ → Game → Game
  | 0, g => g
  | n + 1, g => movesN f n (updateWith g f)

/-- A concrete run: click to start and steer the snake up by pointer. -/
def c2Poll1 : Game := handleInput (initGame (0, 19)) [Ev.mousebuttondown] (310, 0) (0, 19)

/-- Ten steps up from the center: head reaches the top wall at `(15, 0)`. -/
def c2Run1 : Game := movesN (0, 19) 10 c2Poll1

/-- A poll steering right by pointer. -/
def c2Poll2 : Game := handleInput c2Run1 [] (600, 10) (0, 19)

/-- Fourteen steps right along the top wall: head reaches `(29, 0)`. -/
def c2Run2 : Game := movesN (0, 19) 14 c2Poll2

/-- A poll steering up by pointer while the head sits at `(29, 0)` moving
right: the pending vote `(0, -1)` will be adopted by the next step, whose
new head `(29, -1)` is out of bounds. -/
def c2State : Game := handleInput c2Run2 [] (590, 0) (0, 19)

/-- A sample playing state about to eat: single-cell snake at the center,
food directly to the right of the head. -/
def eatState : Game :=
  { snake := [((15 : ℤ), (10 : ℤ))], direction := (1, 0), nextDirection := (1, 0),
    food := (16, 10), score := 0, state := Mode.playing, gameOver := false,
    frameCount := 0, terminated := false }

/-- A sample playing state about to hit the left wall. -/
def wallState : Game :=
  { snake := [((0 : ℤ), (10 : ℤ))], direction := (-1, 0), nextDirection := (-1, 0),
    food := (5, 5), score := 0, state := Mode.playing, gameOver := false,
    frameCount := 0, terminated := false }

/-! ### Structural lemmas about the input and update functions -/

theorem updateWith_direction (g : Game) (f : Pos) :
    (updateWith g f).direction = g.nextDirection := by
  unfold updateWith
  split
  · rfl
  split
  · rfl
  · rfl

theorem updateWith_nextDirection (g : Game) (f : Pos) :
    (updateWith g f).nextDirection = g.nextDirection := by
  unfold updateWith
  split
  · rfl
  split
  · rfl
  · rfl

theorem applyKeyVote_shape (g : Game) (k : Key) :
    applyKeyVote g k = g ∨
      ∃ v, KeyVoteOK g.direction v ∧ applyKeyVote g k = { g with nextDirection := v } := by
  unfold applyKeyVote KeyVoteOK
  split
  · rename_i h
    exact Or.inr ⟨(0, -1), Or.inl ⟨rfl, h.2⟩, rfl⟩
  split
  · rename_i h
    exact Or.inr ⟨(0, 1), Or.inr (Or.inl ⟨rfl, h.2⟩), rfl⟩
  split
  · rename_i h
    exact Or.inr ⟨(-1, 0), Or.inr (Or.inr (Or.inl ⟨rfl, h.2⟩)), rfl⟩
  split
  · rename_i h
    exact Or.inr ⟨(1, 0), Or.inr (Or.inr (Or.inr ⟨rfl, h.2⟩)), rfl⟩
  · exact Or.inl rfl

theorem eventPhase1_shape (f : Pos) (g : Game) (e : Ev) :
    eventPhase1 f g e = g ∨
      (g.state = Mode.gameover ∧ eventPhase1 f g e = { g with terminated := true }) ∨
      (g.state ≠ Mode.playing ∧
        eventPhase1 f g e = resetWith { g with state := Mode.playing } f) := by
  cases e with
  | keydown k =>
      simp only [eventPhase1]
      split
      · rename_i hm
        exact Or.inr (Or.inr ⟨by simp [hm], rfl⟩)
      split
      · rename_i hgo
        split
        · exact Or.inr (Or.inr ⟨by simp [hgo], rfl⟩)
        split
        · exact Or.inr (Or.inl ⟨hgo, rfl⟩)
        · exact Or.inl rfl
      · exact Or.inl rfl
  | mousebuttondown =>
      simp only [eventPhase1]
      split
      · rename_i hm
        exact Or.inr (Or.inr ⟨by simp [hm], rfl⟩)
      · exact Or.inl rfl
  | other => exact Or.inl rfl

theorem processEvent_shape (f : Pos) (g : Game) (e : Ev) :
    processEvent f g e = g ∨
      (g.state = Mode.gameover ∧ processEvent f g e = { g with terminated := true }) ∨
      (g.state = Mode.playing ∧
        ∃ v, KeyVoteOK g.direction v ∧ processEvent f g e = { g with nextDirection := v }) ∨
      (g.state ≠ Mode.playing ∧
        (processEvent f g e = resetWith { g with state := Mode.playing } f ∨
          ∃ v, KeyVoteOK (1, 0) v ∧
            processEvent f g e =
              { resetWith { g with state := Mode.playing } f with nextDirection := v })) := by
  by_cases ht : g.terminated
  · left
    simp [processEvent, ht]
  have hpe : processEvent f g e = eventPhase2 (eventPhase1 f g e) e := by
    simp [processEvent, ht]
  rcases eventPhase1_shape f g e with h1 | ⟨hgo, h1⟩ | ⟨hnp, h1⟩
  · -- phase 1 did nothing
    cases e with
    | keydown k =>
        rw [hpe, h1]
        simp only [eventPhase2]
        split
        · rename_i hp
          rcases applyKeyVote_shape g k with h2 | ⟨v, hv, h2⟩
          · left; exact h2
          · exact Or.inr (Or.inr (Or.inl ⟨hp, v, hv, h2⟩))
        · left; rfl
    | mousebuttondown => left; rw [hpe, h1]; rfl
    | other => left; rw [hpe, h1]; rfl
  · -- quit path from game over
    cases e with
    | keydown k =>
        rw [hpe, h1]
        simp only [eventPhase2]
        split
        · rename_i hp
          have hp2 : g.state = Mode.playing := hp
          rw [hgo] at hp2
          cases hp2
        · exact Or.inr (Or.inl ⟨hgo, rfl⟩)
    | mousebuttondown => exact Or.inr (Or.inl ⟨hgo, by rw [hpe, h1]; rfl⟩)
    | other => exact Or.inr (Or.inl ⟨hgo, by rw [hpe, h1]; rfl⟩)
  · -- a reset to playing happened
    cases e with
    | keydown k =>
        rw [hpe, h1]
        simp only [eventPhase2]
        split
        · rcases applyKeyVote_shape (resetWith { g with state := Mode.playing } f) k with
            h2 | ⟨v, hv, h2⟩
          · exact Or.inr (Or.inr (Or.inr ⟨hnp, Or.inl h2⟩))
          · exact Or.inr (Or.inr (Or.inr ⟨hnp, Or.inr ⟨v, hv, h2⟩⟩))
        · rename_i hp
          exact absurd rfl hp
    | mousebuttondown => exact Or.inr (Or.inr (Or.inr ⟨hnp, Or.inl (by rw [hpe, h1]; rfl)⟩))
    | other => exact Or.inr (Or.inr (Or.inr ⟨hnp, Or.inl (by rw [hpe, h1]; rfl)⟩))

/-! ### Direction-vote invariant -/

theorem keyVoteOK_accepts (d v : Pos) (h : KeyVoteOK d v) :
    DirOK v ∧ v ≠ (-d.1, -d.2) := by
  rcases h with ⟨rfl, h2⟩ | ⟨rfl, h2⟩ | ⟨rfl, h2⟩ | ⟨rfl, h2⟩
  · refine ⟨by unfold DirOK; simp, fun heq => ?_⟩
    have h3 := congrArg Prod.snd heq
    rw [h2] at h3
    norm_num at h3
  · refine ⟨by unfold DirOK; simp, fun heq => ?_⟩
    have h3 := congrArg Prod.snd heq
    rw [h2] at h3
    norm_num at h3
  · refine ⟨by unfold DirOK; simp, fun heq => ?_⟩
    have h3 := congrArg Prod.fst heq
    rw [h2] at h3
    norm_num at h3
  · refine ⟨by unfold DirOK; simp, fun heq => ?_⟩
    have h3 := congrArg Prod.fst heq
    rw [h2] at h3
    norm_num at h3

theorem dirOK_ne_reverse (d : Pos) (h : DirOK d) : d ≠ (-d.1, -d.2) := by
  rcases h with rfl | rfl | rfl | rfl <;> decide

theorem mouseVote_dirOK (head : Pos) (mouse : ℤ × ℤ) : DirOK (mouseVote head mouse) := by
  unfold mouseVote DirOK
  dsimp only
  split
  · split
    · decide
    · decide
  · split
    · decide
    · decide

theorem resetWith_voteInv (g : Game) (f : Pos) : VoteInv (resetWith g f) := by
  refine ⟨Or.inl rfl, Or.inl rfl, ?_⟩
  show ((1 : ℤ), (0 : ℤ)) ≠ (-(1 : ℤ), -(0 : ℤ))
  decide

theorem processEvent_voteInv (f : Pos) (g : Game) (e : Ev) (hv : VoteInv g) :
    VoteInv (processEvent f g e) := by
  rcases processEvent_shape f g e with h | ⟨_, h⟩ | ⟨_, v, hkv, h⟩ | ⟨_, h | ⟨v, hkv, h⟩⟩
  · rw [h]; exact hv
  · rw [h]; exact hv
  · rw [h]
    have h2 := keyVoteOK_accepts g.direction v hkv
    exact ⟨hv.1, h2.1, h2.2⟩
  · rw [h]; exact resetWith_voteInv _ f
  · rw [h]
    have h2 := keyVoteOK_accepts (1, 0) v hkv
    exact ⟨Or.inl rfl, h2.1, h2.2⟩

theorem processEvents_voteInv (f : Pos) (evs : List Ev) (g : Game) (hv : VoteInv g) :
    VoteInv (processEvents g evs f) := by
  induction evs generalizing g with
  | nil => exact hv
  | cons e t ih => exact ih (processEvent f g e) (processEvent_voteInv f g e hv)

theorem handleInput_voteInv (g : Game) (evs : List Ev) (mouse : ℤ × ℤ) (f : Pos)
    (hv : VoteInv g) : VoteInv (handleInput g evs mouse f) := by
  have h1 := processEvents_voteInv f evs g hv
  unfold handleInput
  dsimp only
  split
  · split
    · rename_i hnv
      exact ⟨h1.1, mouseVote_dirOK _ _, hnv⟩
    · exact h1
  · exact h1

theorem updateWith_voteInv (g : Game) (f : Pos) (hv : VoteInv g) :
    VoteInv (updateWith g f) := by
  unfold VoteInv
  rw [updateWith_direction, updateWith_nextDirection]
  exact ⟨hv.2.1, hv.2.1, dirOK_ne_reverse _ hv.2.1⟩

theorem reachable_voteInv (g : Game) (h : Reachable g) : VoteInv g := by
  induction h with
  | init food =>
      refine ⟨Or.inl rfl, Or.inl rfl, ?_⟩
      show ((1 : ℤ), (0 : ℤ)) ≠ (-(1 : ℤ), -(0 : ℤ))
      decide
  | poll evs mouse food _ ih => exact handleInput_voteInv _ evs mouse food ih
  | move food _ _ ih => exact updateWith_voteInv _ food ih

/-! ### Snake well-formedness -/

theorem resetWith_wfSnake (g : Game) (f : Pos) : WFSnake (resetWith g f) :=
  ⟨List.nodup_singleton _, le_refl 1⟩

theorem processEvent_wfSnake (f : Pos) (g : Game) (e : Ev) (hw : WFSnake g) :
    WFSnake (processEvent f g e) := by
  rcases processEvent_shape f g e with h | ⟨_, h⟩ | ⟨_, v, _, h⟩ | ⟨_, h | ⟨v, _, h⟩⟩
  · rw [h]; exact hw
  · rw [h]; exact hw
  · rw [h]; exact hw
  · rw [h]; exact resetWith_wfSnake _ f
  · rw [h]; exact ⟨List.nodup_singleton _, le_refl 1⟩

theorem processEvents_wfSnake (f : Pos) (evs : List Ev) (g : Game) (hw : WFSnake g) :
    WFSnake (processEvents g evs f) := by
  induction evs generalizing g with
  | nil => exact hw
  | cons e t ih => exact ih (processEvent f g e) (processEvent_wfSnake f g e hw)

theorem handleInput_wfSnake (g : Game) (evs : List Ev) (mouse : ℤ × ℤ) (f : Pos)
    (hw : WFSnake g) : WFSnake (handleInput g evs mouse f) := by
  have h1 := processEvents_wfSnake f evs g hw
  unfold handleInput
  dsimp only
  split
  · split
    · exact h1
    · exact h1
  · exact h1

theorem updateWith_wfSnake (g : Game) (f : Pos) (hw : WFSnake g) :
    WFSnake (updateWith g f) := by
  unfold updateWith
  split
  · exact hw
  · rename_i hcol
    have hnotin : newHead g ∉ g.snake := fun hc => hcol (Or.inl hc)
    split
    · exact ⟨List.nodup_cons.2 ⟨hnotin, hw.1⟩, by simp⟩
    · refine ⟨List.Nodup.sublist (List.dropLast_sublist _) (List.nodup_cons.2 ⟨hnotin, hw.1⟩), ?_⟩
      have hlen := hw.2
      rw [List.length_dropLast, List.length_cons]
      omega

theorem reachable_wfSnake (g : Game) (h : Reachable g) : WFSnake g := by
  induction h with
  | init food => exact ⟨List.nodup_singleton _, le_refl 1⟩
  | poll evs mouse food _ ih => exact handleInput_wfSnake _ evs mouse food ih
  | move food _ _ ih => exact updateWith_wfSnake _ food ih

/-! ### State and frame-counter tracking through an input poll -/

theorem processEvent_stateFrame (f : Pos) (g : Game) (e : Ev) :
    ((processEvent f g e).state = g.state ∧ (processEvent f g e).frameCount = g.frameCount) ∨
      ((processEvent f g e).state = Mode.playing ∧ (processEvent f g e).frameCount = 0) := by
  rcases processEvent_shape f g e with h | ⟨_, h⟩ | ⟨_, _, _, h⟩ | ⟨_, h | ⟨v, _, h⟩⟩
  · rw [h]; exact Or.inl ⟨rfl, rfl⟩
  · rw [h]; exact Or.inl ⟨rfl, rfl⟩
  · rw [h]; exact Or.inl ⟨rfl, rfl⟩
  · rw [h]; exact Or.inr ⟨rfl, rfl⟩
  · rw [h]; exact Or.inr ⟨rfl, rfl⟩

theorem processEvents_stateFrame (f : Pos) (evs : List Ev) (g : Game) :
    ((processEvents g evs f).state = g.state ∧
        (processEvents g evs f).frameCount = g.frameCount) ∨
      ((processEvents g evs f).state = Mode.playing ∧
        (processEvents g evs f).frameCount = 0) := by
  induction evs generalizing g with
  | nil => exact Or.inl ⟨rfl, rfl⟩
  | cons e t ih =>
      rcases processEvent_stateFrame f g e with ⟨h1, h2⟩ | ⟨h1, h2⟩ <;>
        rcases ih (processEvent f g e) with ⟨h3, h4⟩ | ⟨h3, h4⟩
      · exact Or.inl ⟨h3.trans h1, h4.trans h2⟩
      · exact Or.inr ⟨h3, h4⟩
      · exact Or.inr ⟨h3.trans h1, h4.trans h2⟩
      · exact Or.inr ⟨h3, h4⟩

theorem handleInput_stateFrame (g : Game) (evs : List Ev) (mouse : ℤ × ℤ) (f : Pos) :
    ((handleInput g evs mouse f).state = g.state ∧
        (handleInput g evs mouse f).frameCount = g.frameCount) ∨
      ((handleInput g evs mouse f).state = Mode.playing ∧
        (handleInput g evs mouse f).frameCount = 0) := by
  have h1 := processEvents_stateFrame f evs g
  unfold handleInput
  dsimp only
  split
  · split
    · exact h1
    · exact h1
  · exact h1

theorem processEvent_playing (f : Pos) (g : Game) (e : Ev) (hp : g.state = Mode.playing) :
    ∃ nd, processEvent f g e = { g with nextDirection := nd } := by
  rcases processEvent_shape f g e with h | ⟨hgo, _⟩ | ⟨_, v, _, h⟩ | ⟨hnp, _⟩
  · refine ⟨g.nextDirection, h.trans ?_⟩
    rfl
  · rw [hp] at hgo
    cases hgo
  · exact ⟨v, h⟩
  · exact absurd hp hnp

theorem processEvents_playing (f : Pos) (evs : List Ev) (g : Game)
    (hp : g.state = Mode.playing) :
    ∃ nd, processEvents g evs f = { g with nextDirection := nd } := by
  induction evs generalizing g with
  | nil => exact ⟨g.nextDirection, rfl⟩
  | cons e t ih =>
      obtain ⟨nd1, h1⟩ := processEvent_playing f g e hp
      have hp1 : (processEvent f g e).state = Mode.playing := by rw [h1]; exact hp
      obtain ⟨nd2, h2⟩ := ih (processEvent f g e) hp1
      refine ⟨nd2, ?_⟩
      show (processEvents (processEvent f g e) t f) = _
      rw [h2, h1]

theorem handleInput_playing (g : Game) (evs : List Ev) (mouse : ℤ × ℤ) (f : Pos)
    (hp : g.state = Mode.playing) :
    ∃ nd, handleInput g evs mouse f = { g with nextDirection := nd } := by
  obtain ⟨nd1, h1⟩ := processEvents_playing f evs g hp
  have hp1 : (processEvents g evs f).state = Mode.playing := by rw [h1]; exact hp
  unfold handleInput
  dsimp only
  rw [if_pos hp1]
  by_cases hm : ¬(mouseVote (processEvents g evs f).snake.headI mouse =
      (-(processEvents g evs f).direction.1, -(processEvents g evs f).direction.2))
  · rw [if_pos hm, h1]
    exact ⟨_, rfl⟩
  · rw [if_neg hm, h1]
    exact ⟨nd1, rfl⟩

/-! ### The frame clock of `run` -/

theorem frameTick_playing (g : Game) (f2 : Pos) (hp : g.state = Mode.playing) :
    frameTick g f2 =
      if framesPerMove ≤ g.frameCount + 1 then
        (updateWith { g with frameCount := 0 } f2, 1)
      else ({ g with frameCount := g.frameCount + 1 }, 0) := by
  unfold frameTick
  rw [if_pos hp]

theorem frameTick_notPlaying (g : Game) (f2 : Pos) (hp : ¬g.state = Mode.playing) :
    frameTick g f2 = (g, 0) := by
  unfold frameTick
  rw [if_neg hp]

theorem runFrames_playing (l : List FrameIn) : ∀ g : Game, g.state = Mode.playing →
    g.frameCount + l.length ≤ 5 →
    (runFrames g l).1.state = Mode.playing ∧
      (runFrames g l).1.frameCount = g.frameCount + l.length ∧
      (runFrames g l).2 = 0 := by
  induction l with
  | nil => exact fun g hp _ => ⟨hp, by simp [runFrames], rfl⟩
  | cons i t ih =>
      intro g hp hle
      obtain ⟨nd1, h1⟩ := handleInput_playing g i.evs i.mouse i.food1 hp
      have hp1 : (handleInput g i.evs i.mouse i.food1).state = Mode.playing := by
        rw [h1]; exact hp
      have hcnt : (handleInput g i.evs i.mouse i.food1).frameCount = g.frameCount := by
        rw [h1]
      have htick : frameStep g i = ({ handleInput g i.evs i.mouse i.food1 with
          frameCount := (handleInput g i.evs i.mouse i.food1).frameCount + 1 }, 0) := by
        unfold frameStep
        rw [frameTick_playing _ _ hp1, if_neg]
        rw [hcnt]
        simp only [List.length_cons] at hle
        unfold framesPerMove fps moveRate
        omega
      have hq1 : (frameStep g i).1.state = Mode.playing := by rw [htick]; exact hp1
      have hq2 : (frameStep g i).1.frameCount = g.frameCount + 1 := by
        rw [htick]
        show (handleInput g i.evs i.mouse i.food1).frameCount + 1 = g.frameCount + 1
        rw [hcnt]
      simp only [List.length_cons] at hle
      obtain ⟨h3, h4, h5⟩ := ih (frameStep g i).1 hq1 (by omega)
      refine ⟨?_, ?_, ?_⟩
      · show (runFrames (frameStep g i).1 t).1.state = Mode.playing
        exact h3
      · show (runFrames (frameStep g i).1 t).1.frameCount = g.frameCount + (t.length + 1)
        rw [h4, hq2]
        omega
      · show (frameStep g i).2 + (runFrames (frameStep g i).1 t).2 = 0
        rw [h5, htick]

/-! ### Rounding and truncation lemmas -/

theorem floor_le_pyRound (x : ℝ) : ⌊x⌋ ≤ pyRound x := by
  unfold pyRound
  split
  · exact le_refl _
  split
  · omega
  split
  · exact le_refl _
  · omega

theorem pyRound_nonneg (x : ℝ) (h : 0 ≤ x) : 0 ≤ pyRound x :=
  le_trans (Int.floor_nonneg.2 h) (floor_le_pyRound x)

theorem pyRound_nonpos (x : ℝ) (h : x ≤ 0) : pyRound x ≤ 0 := by
  unfold pyRound
  split
  · exact Int.floor_nonpos h
  split
  · rename_i h2
    have hc : (⌊x⌋ : ℝ) < 0 := by linarith
    have hc2 : ⌊x⌋ < 0 := by exact_mod_cast hc
    omega
  split
  · exact Int.floor_nonpos h
  · rename_i h1 h2 _
    have he1 : x - ⌊x⌋ ≤ 1 / 2 := not_lt.1 h2
    have he2 : 1 / 2 ≤ x - ⌊x⌋ := not_lt.1 h1
    have hc : (⌊x⌋ : ℝ) < 0 := by linarith
    have hc2 : ⌊x⌋ < 0 := by exact_mod_cast hc
    omega

theorem pyRound_intCast (n : ℤ) : pyRound ((n : ℤ) : ℝ) = n := by
  unfold pyRound
  rw [Int.floor_intCast]
  rw [if_pos (by norm_num)]

theorem pyTrunc_intCast (n : ℤ) : pyTrunc ((n : ℤ) : ℝ) = n := by
  unfold pyTrunc
  split
  · exact Int.floor_intCast n
  · rw [show -((n : ℤ) : ℝ) = (((-n : ℤ)) : ℝ) by push_cast; ring, Int.floor_intCast]
    omega

theorem pyTrunc_neg_intCast (m : ℤ) : pyTrunc (-((m : ℤ) : ℝ)) = -m := by
  rw [show -((m : ℤ) : ℝ) = (((-m : ℤ)) : ℝ) by push_cast; ring]
  exact pyTrunc_intCast (-m)

theorem pyTrunc_of_nonneg (x : ℝ) (h : 0 ≤ x) : pyTrunc x = ⌊x⌋ := by
  unfold pyTrunc
  rw [if_pos h]

theorem pyTrunc_abs_le (x : ℝ) (m : ℤ) (hm : |x| ≤ (m : ℝ)) :
    -m ≤ pyTrunc x ∧ pyTrunc x ≤ m := by
  unfold pyTrunc
  split
  · rename_i hx
    constructor
    · have h1 : (0 : ℤ) ≤ ⌊x⌋ := Int.floor_nonneg.2 hx
      have h2 : (0 : ℝ) ≤ (m : ℝ) := le_trans (abs_nonneg x) hm
      have h3 : (0 : ℤ) ≤ m := by exact_mod_cast h2
      omega
    · calc ⌊x⌋ ≤ ⌊(m : ℝ)⌋ := Int.floor_le_floor (le_trans (le_abs_self x) hm)
        _ = m := Int.floor_intCast m
  · rename_i hx
    push_neg at hx
    have hxm : -x ≤ (m : ℝ) := le_trans (neg_le_abs x) hm
    constructor
    · have h1 : ⌊-x⌋ ≤ m := by
        calc ⌊-x⌋ ≤ ⌊(m : ℝ)⌋ := Int.floor_le_floor hxm
          _ = m := Int.floor_intCast m
      omega
    · have h0 : (0 : ℤ) ≤ ⌊-x⌋ := Int.floor_nonneg.2 (by linarith)
      have h2 : (0 : ℝ) ≤ (m : ℝ) := le_trans (abs_nonneg x) hm
      have h3 : (0 : ℤ) ≤ m := by exact_mod_cast h2
      omega

/-! ### Waveform amplitude bounds -/

theorem mul_ramp_abs_le (c x : ℝ) (hc : 0 ≤ c) :
    |c * (2 * (x - ⌊(0.5 : ℝ) + x⌋))| ≤ c := by
  have h1 : (⌊(0.5 : ℝ) + x⌋ : ℝ) ≤ 0.5 + x := Int.floor_le _
  have h2 : (0.5 : ℝ) + x < ⌊(0.5 : ℝ) + x⌋ + 1 := Int.lt_floor_add_one _
  rw [abs_mul, abs_of_nonneg hc]
  have h3 : |2 * (x - ⌊(0.5 : ℝ) + x⌋)| ≤ 1 := by
    rw [abs_le]
    constructor <;> linarith
  calc c * |2 * (x - ⌊(0.5 : ℝ) + x⌋)| ≤ c * 1 := mul_le_mul_of_nonneg_left h3 hc
    _ = c := mul_one c

theorem mul_sin_abs_le (c θ : ℝ) (hc : 0 ≤ c) : |c * Real.sin θ| ≤ c := by
  rw [abs_mul, abs_of_nonneg hc]
  calc c * |Real.sin θ| ≤ c * 1 := mul_le_mul_of_nonneg_left (Real.abs_sin_le_one θ) hc
    _ = c := mul_one c

theorem abs_ite_pm (c : Prop) [Decidable c] (m : ℝ) (hm : 0 ≤ m) :
    |if c then m else -m| ≤ m := by
  split
  · rw [abs_of_nonneg hm]
  · rw [abs_neg, abs_of_nonneg hm]

theorem waveVal_abs_le (freq duration : ℝ) (shape : String) (decay : Bool) (maxAmp : ℤ)
    (rate : ℝ) (i : ℕ) (hm : 0 ≤ maxAmp) :
    |waveVal freq duration shape decay maxAmp rate i| ≤ (maxAmp : ℝ) := by
  have hm2 : (0 : ℝ) ≤ (maxAmp : ℝ) := by exact_mod_cast hm
  unfold waveVal
  dsimp only
  split
  · exact abs_ite_pm _ _ hm2
  split
  · exact mul_ramp_abs_le _ _ hm2
  · exact mul_sin_abs_le _ _ hm2

theorem makeSound_sample_bounds (freq duration volume rate : ℝ) (shape : String)
    (decay : Bool) (hv0 : 0 ≤ volume) :
    ∀ s ∈ makeSound freq duration volume shape decay rate,
      -pyRound (32767 * volume) ≤ s ∧ s ≤ pyRound (32767 * volume) := by
  intro s hs
  unfold makeSound at hs
  dsimp only at hs
  obtain ⟨i, _, rfl⟩ := List.mem_map.1 hs
  have hz : (0 : ℝ) ≤ 32767 * volume := by positivity
  have hma : 0 ≤ pyTrunc (32767 * volume) := by
    rw [pyTrunc_of_nonneg _ hz]
    exact Int.floor_nonneg.2 hz
  have hb := pyTrunc_abs_le _ _ (waveVal_abs_le freq duration shape decay
    (pyTrunc (32767 * volume)) rate i hma)
  have hle : pyTrunc (32767 * volume) ≤ pyRound (32767 * volume) := by
    rw [pyTrunc_of_nonneg _ hz]
    exact floor_le_pyRound _
  exact ⟨by omega, by omega⟩

theorem makeSound_length (freq duration volume rate : ℝ) (shape : String) (decay : Bool) :
    (makeSound freq duration volume shape decay rate).length =
      (pyRound (duration * rate)).toNat := by
  unfold makeSound
  dsimp only
  rw [List.length_map, List.length_range]

theorem square_sample_zero (freq duration volume rate : ℝ) (decay : Bool)
    (hn : 0 < pyRound (duration * rate)) :
    (makeSound freq duration volume "square" decay rate).get? 0 =
      some (-pyTrunc (32767 * volume)) := by
  unfold makeSound
  dsimp only
  have hn2 : 0 < (pyRound (duration * rate)).toNat := Int.lt_toNat.2 hn
  rw [List.get?_map, List.get?_range hn2]
  have hw : waveVal freq duration "square" decay (pyTrunc (32767 * volume)) rate 0 =
      -((pyTrunc (32767 * volume) : ℤ) : ℝ) := by
    unfold waveVal
    dsimp only
    rw [if_pos rfl]
    rw [Nat.cast_zero, zero_div, mul_zero, Real.sin_zero]
    rw [if_neg (lt_irrefl 0)]
  simp only [Option.map_some']
  rw [hw, pyTrunc_neg_intCast]

/-! ### Reachability of concrete traces -/

theorem reachable_movesN (f : Pos) : ∀ (n : ℕ) (g : Game), Reachable g →
    (∀ k, k < n → (movesN f k g).state = Mode.playing) → Reachable (movesN f n g) := by
  intro n
  induction n with
  | zero => exact fun g hg _ => hg
  | succ m ih =>
      intro g hg hall
      have h0 : g.state = Mode.playing := hall 0 (Nat.succ_pos m)
      have h1 : Reachable (updateWith g f) := Reachable.move f hg h0
      have h2 : ∀ k, k < m → (movesN f k (updateWith g f)).state = Mode.playing := by
        intro k hk
        exact hall (k + 1) (by omega)
      exact ih (updateWith g f) h1 h2

/-! ### The claims -/

/-- C1: In every reachable game state, the direction a simulation step
adopts (the pending vote it consumes) is never the exact opposite of the
direction adopted previously — no 180-degree reversal ever takes effect,
whichever input channel produced the pending vote. -/
theorem c1_no_effective_reversal (g : Game) (hr : Reachable g)
    (hp : g.state = Mode.playing) (f : Pos) :
    (updateWith g f).direction ≠ (-g.direction.1, -g.direction.2) := by
  rw [updateWith_direction]
  exact (reachable_voteInv g hr).2.2

/-- Witness for C1 at a concrete reachable playing state. -/
theorem c1_no_effective_reversal_witness :
    (handleInput (initGame (0, 0)) [Ev.mousebuttondown] (1000, 210) (0, 0)).state =
        Mode.playing ∧
      (updateWith (handleInput (initGame (0, 0)) [Ev.mousebuttondown] (1000, 210) (0, 0))
            (0, 0)).direction ≠
        (-(handleInput (initGame (0, 0)) [Ev.mousebuttondown] (1000, 210) (0, 0)).direction.1,
          -(handleInput (initGame (0, 0)) [Ev.mousebuttondown] (1000, 210) (0, 0)).direction.2) :=
  ⟨by decide,
    c1_no_effective_reversal _ (Reachable.poll _ _ _ (Reachable.init (0, 0))) (by decide) (0, 0)⟩

set_option maxRecDepth 20000 in
/-- C2 counterexample: a reachable state whose step collides (the new head
leaves the grid) but in which the pending direction differs from the
current one; the colliding step changes the `direction` field, so the
state after the step is not the state before with only the mode flipped to
game over. -/
theorem c2_counterexample :
    Reachable c2State ∧ hitsWallOrSelf c2State ∧
      (updateWith c2State (0, 19)).direction ≠ c2State.direction := by
  refine ⟨?_, by decide, by decide⟩
  have h1 : Reachable c2Poll1 := Reachable.poll _ _ _ (Reachable.init (0, 19))
  have h2 : Reachable c2Run1 := reachable_movesN (0, 19) 10 c2Poll1 h1 (by decide)
  have h3 : Reachable c2Poll2 := Reachable.poll _ _ _ h2
  have h4 : Reachable c2Run2 := reachable_movesN (0, 19) 14 c2Poll2 h3 (by decide)
  exact Reachable.poll _ _ _ h4

/-- C2 (amended): when the computed new head is out of the grid or on the
snake, the state after `update` equals the state before it except that the
mode becomes game over and the current direction has been updated to the
pending direction (which `update` adopts before the collision check);
snake, food, score and every remaining field are unchanged and the move is
not applied. -/
theorem c2_collision_atomic (g : Game) (f : Pos) (h : hitsWallOrSelf g) :
    updateWith g f =
      { g with direction := g.nextDirection, state := Mode.gameover, gameOver := true } := by
  unfold updateWith
  dsimp only
  rw [if_pos h]

/-- Witness for C2's amended statement at a concrete colliding state. -/
theorem c2_collision_atomic_witness :
    hitsWallOrSelf wallState ∧
      updateWith wallState (1, 1) =
        { wallState with
          direction := wallState.nextDirection, state := Mode.gameover,
          gameOver := true } :=
  ⟨by decide, c2_collision_atomic wallState (1, 1) (by decide)⟩

/-- C3: from a playing state whose computed new head is in bounds and not
on the snake, a step onto the food grows the snake by exactly one cell and
the score by exactly one; a step not onto the food changes neither. -/
theorem c3_eat_growth (g : Game) (f : Pos) (hp : g.state = Mode.playing)
    (hb : ¬hitsWallOrSelf g) :
    (newHead g = g.food →
        (updateWith g f).snake.length = g.snake.length + 1 ∧
          (updateWith g f).score = g.score + 1) ∧
      (newHead g ≠ g.food →
        (updateWith g f).snake.length = g.snake.length ∧
          (updateWith g f).score = g.score) := by
  unfold updateWith
  dsimp only
  rw [if_neg hb]
  constructor
  · intro he
    rw [if_pos he]
    exact ⟨by rw [List.length_cons], rfl⟩
  · intro hne
    rw [if_neg hne]
    refine ⟨?_, rfl⟩
    show (newHead g :: g.snake).dropLast.length = g.snake.length
    rw [List.length_dropLast, List.length_cons]
    omega

/-- Witness for C3 at a concrete eating state. -/
theorem c3_eat_growth_witness :
    (eatState.state = Mode.playing ∧ ¬hitsWallOrSelf eatState) ∧
      (newHead eatState = eatState.food →
        (updateWith eatState (3, 3)).snake.length = eatState.snake.length + 1 ∧
          (updateWith eatState (3, 3)).score = eatState.score + 1) :=
  ⟨⟨rfl, by decide⟩, (c3_eat_growth eatState (3, 3) rfl (by decide)).1⟩

/-- C4: snake well-formedness (pairwise distinct cells, length at least 1)
holds in every reachable state, is (re)established by every reset, and is
preserved by every step. -/
theorem c4_snake_wellformed :
    (∀ g : Game, Reachable g → g.snake.Nodup ∧ 1 ≤ g.snake.length) ∧
      (∀ (g : Game) (f : Pos),
        (resetWith g f).snake.Nodup ∧ 1 ≤ (resetWith g f).snake.length) ∧
      (∀ (g : Game) (f : Pos), g.snake.Nodup ∧ 1 ≤ g.snake.length →
        (updateWith g f).snake.Nodup ∧ 1 ≤ (updateWith g f).snake.length) :=
  ⟨fun g h => reachable_wfSnake g h,
    fun g f => resetWith_wfSnake g f,
    fun g f h => updateWith_wfSnake g f h⟩

/-- Witness for C4 at the initial state and at a concrete step. -/
theorem c4_snake_wellformed_witness :
    ((initGame (0, 0)).snake.Nodup ∧ 1 ≤ (initGame (0, 0)).snake.length) ∧
      ((updateWith eatState (3, 3)).snake.Nodup ∧
        1 ≤ (updateWith eatState (3, 3)).snake.length) :=
  ⟨c4_snake_wellformed.1 _ (Reachable.init (0, 0)),
    c4_snake_wellformed.2.2 eatState (3, 3) (by decide)⟩

/-- C5: the food-placement loop never returns a cell of the snake it
samples against, so the food is off the snake immediately after every
reset and immediately after every eating step — given that the retry loop
terminates, i.e. some draw of the stream misses the snake (guaranteed in
particular when a free cell exists and the stream eventually hits it). -/
theorem c5_food_not_on_snake :
    (∀ (snake : List Pos) (r : ℕ → Pos) (h : ∃ n, r n ∉ snake),
        spawnFood r snake h ∉ snake) ∧
      (∀ (g : Game) (r : ℕ → Pos) (h : ∃ n, r n ∉ [startCell]),
        (resetSpawn g r h).food ∉ (resetSpawn g r h).snake) ∧
      (∀ (g : Game) (r : ℕ → Pos) (h : ∃ n, r n ∉ newHead g :: g.snake),
        ¬hitsWallOrSelf g → newHead g = g.food →
        (updateSpawn r g h).food ∉ (updateSpawn r g h).snake) := by
  refine ⟨?_, ?_, ?_⟩
  · intro snake r h
    exact Nat.find_spec h
  · intro g r h
    show spawnFood r [startCell] h ∉ [startCell]
    exact Nat.find_spec h
  · intro g r h hb he
    show (updateWith g (spawnFood r (newHead g :: g.snake) h)).food ∉
      (updateWith g (spawnFood r (newHead g :: g.snake) h)).snake
    unfold updateWith
    dsimp only
    rw [if_neg hb, if_pos he]
    exact Nat.find_spec h

/-- Witness for C5 with a concrete stream, a reset, and an eating step. -/
theorem c5_food_not_on_snake_witness :
    spawnFood (fun _ => ((0 : ℤ), (0 : ℤ))) [startCell] ⟨0, by decide⟩ ∉ [startCell] ∧
      (resetSpawn (initGame (0, 0)) (fun _ => ((0 : ℤ), (0 : ℤ))) ⟨0, by decide⟩).food ∉
        (resetSpawn (initGame (0, 0)) (fun _ => ((0 : ℤ), (0 : ℤ))) ⟨0, by decide⟩).snake ∧
      (updateSpawn (fun _ => ((0 : ℤ), (0 : ℤ))) eatState ⟨0, by decide⟩).food ∉
        (updateSpawn (fun _ => ((0 : ℤ), (0 : ℤ))) eatState ⟨0, by decide⟩).snake :=
  ⟨c5_food_not_on_snake.1 [startCell] _ _,
    c5_food_not_on_snake.2.1 (initGame (0, 0)) _ _,
    c5_food_not_on_snake.2.2 eatState _ _ (by decide) (by decide)⟩

/-- C6: for nonnegative duration, volume in the unit interval, a positive
sample rate and any of the three shapes and decay settings, the
synthesizer returns exactly `round(duration * rate)` integer samples, each
within `[-peak, peak]` for `peak = round(32767 * volume)` (the buffer is
generated with amplitude `int(32767 * volume) ≤ peak`). -/
theorem c6_synth_contract (freq duration volume rate : ℝ) (shape : String) (decay : Bool)
    (hd : 0 ≤ duration) (hv0 : 0 ≤ volume) (hv1 : volume ≤ 1) (hr : 0 < rate)
    (hs : shape = "sine" ∨ shape = "square" ∨ shape = "sawtooth") :
    ((makeSound freq duration volume shape decay rate).length : ℤ) =
        pyRound (duration * rate) ∧
      ∀ s ∈ makeSound freq duration volume shape decay rate,
        -pyRound (32767 * volume) ≤ s ∧ s ≤ pyRound (32767 * volume) := by
  constructor
  · rw [makeSound_length]
    exact Int.toNat_of_nonneg (pyRound_nonneg _ (mul_nonneg hd hr.le))
  · exact makeSound_sample_bounds freq duration volume rate shape decay hv0

/-- Witness for C6 on the parameters of the eat sound. -/
theorem c6_synth_contract_witness :
    ((0 : ℝ) ≤ 0.05 ∧ (0 : ℝ) ≤ 0.4 ∧ (0.4 : ℝ) ≤ 1 ∧ (0 : ℝ) < 44100) ∧
      ((makeSound 1200 0.05 0.4 "square" false 44100).length : ℤ) =
          pyRound ((0.05 : ℝ) * 44100) ∧
        ∀ s ∈ makeSound 1200 0.05 0.4 "square" false 44100,
          -pyRound ((32767 : ℝ) * 0.4) ≤ s ∧ s ≤ pyRound ((32767 : ℝ) * 0.4) :=
  ⟨⟨by norm_num, by norm_num, by norm_num, by norm_num⟩,
    c6_synth_contract 1200 0.05 0.4 44100 "square" false (by norm_num) (by norm_num)
      (by norm_num) (by norm_num) (Or.inr (Or.inl rfl))⟩

/-- C7 counterexample: with the eat-sound parameters (square wave,
frequency 1200 > 0, volume 0.4) the first sample — at `t = 0` — is
`-13106` (that is, `-int(32767 * 0.4)`), not `+peak = round(32767 * 0.4)
= 13107`: `sin 0 = 0` fails the strict test `> 0`, so the square wave
starts at its negative amplitude. -/
theorem c7_counterexample :
    (makeSound 1200 0.05 0.4 "square" false 44100).get? 0 = some (-13106) ∧
      pyRound ((32767 : ℝ) * 0.4) = 13107 ∧ ((-13106 : ℤ) ≠ 13107) := by
  have hfl : ⌊(32767 * 0.4 : ℝ)⌋ = 13106 := by
    rw [Int.floor_eq_iff]
    constructor <;> norm_num
  have hpk : pyRound ((32767 : ℝ) * 0.4) = 13107 := by
    unfold pyRound
    rw [hfl]
    rw [if_neg (by norm_num), if_pos (by norm_num)]
    decide
  have htr : pyTrunc ((32767 : ℝ) * 0.4) = 13106 := by
    rw [pyTrunc_of_nonneg _ (by norm_num), hfl]
  have hn : (0 : ℤ) < pyRound ((0.05 : ℝ) * 44100) := by
    rw [show ((0.05 : ℝ) * 44100) = ((2205 : ℤ) : ℝ) by norm_num, pyRound_intCast]
    norm_num
  refine ⟨?_, hpk, by decide⟩
  rw [square_sample_zero 1200 0.05 0.4 44100 false hn, htr]

/-- C7 (amended): square-shape synthesis at sample index 0 (`t = 0`) with
positive frequency yields `-peak` (with `peak` the generated amplitude
`int(32767 * volume)`), because `sin 0 = 0` is not `> 0`. -/
theorem c7_square_at_zero (freq duration volume rate : ℝ) (decay : Bool)
    (hf : 0 < freq) (hn : 0 < pyRound (duration * rate)) :
    (makeSound freq duration volume "square" decay rate).get? 0 =
      some (-pyTrunc (32767 * volume)) :=
  square_sample_zero freq duration volume rate decay hn

/-- Witness for C7's amended statement on the eat-sound parameters. -/
theorem c7_square_at_zero_witness :
    ((0 : ℝ) < 1200 ∧ 0 < pyRound ((0.05 : ℝ) * 44100)) ∧
      (makeSound 1200 0.05 0.4 "square" false 44100).get? 0 =
        some (-pyTrunc ((32767 : ℝ) * 0.4)) := by
  have hn : (0 : ℤ) < pyRound ((0.05 : ℝ) * 44100) := by
    rw [show ((0.05 : ℝ) * 44100) = ((2205 : ℤ) : ℝ) by norm_num, pyRound_intCast]
    norm_num
  exact ⟨⟨by norm_num, hn⟩, c7_square_at_zero 1200 0.05 0.4 44100 false (by norm_num) hn⟩

/-- C9: a zero or negative duration yields the empty sample sequence (for
any frequency, volume, shape, decay flag, and positive sample rate); no
per-sample computation runs, so in particular the decay division by
`duration` is never evaluated. -/
theorem c9_nonpositive_duration_empty (freq duration volume rate : ℝ) (shape : String)
    (decay : Bool) (hd : duration ≤ 0) (hr : 0 < rate) :
    makeSound freq duration volume shape decay rate = [] := by
  unfold makeSound
  dsimp only
  have h1 : duration * rate ≤ 0 := mul_nonpos_iff.2 (Or.inr ⟨hd, hr.le⟩)
  rw [Int.toNat_of_nonpos (pyRound_nonpos _ h1), List.range_zero, List.map_nil]

/-- Witness for C9 at zero duration with decay enabled. -/
theorem c9_nonpositive_duration_empty_witness :
    ((0 : ℝ) ≤ 0 ∧ (0 : ℝ) < 44100) ∧
      makeSound 1200 0 0.4 "sawtooth" true 44100 = [] :=
  ⟨⟨le_refl 0, by norm_num⟩,
    c9_nonpositive_duration_empty 1200 0 0.4 44100 "sawtooth" true (le_refl 0) (by norm_num)⟩

/-- C8: the frame clock of the main loop steps the simulation exactly once
per `frames_per_move = 60 // 10 = 6` rendered frames while playing: on a
playing frame the counter advances and an `update()` fires exactly when it
reaches 6 (the counter then returning to 0); on a non-playing frame the
counter is frozen; every transition into playing (from the menu or from
game over) resets the counter to 0; hence after a (re)start the first four
following frames step zero times and the sixth frame steps exactly once. -/
theorem c8_simulation_clock :
    framesPerMove = 6 ∧
      (∀ (g : Game) (i : FrameIn),
        (handleInput g i.evs i.mouse i.food1).state = Mode.playing →
          frameStep g i =
            if framesPerMove ≤ (handleInput g i.evs i.mouse i.food1).frameCount + 1 then
              (updateWith { handleInput g i.evs i.mouse i.food1 with frameCount := 0 }
                i.food2, 1)
            else
              ({ handleInput g i.evs i.mouse i.food1 with
                 frameCount := (handleInput g i.evs i.mouse i.food1).frameCount + 1 }, 0)) ∧
      (∀ (g : Game) (i : FrameIn),
        ¬(handleInput g i.evs i.mouse i.food1).state = Mode.playing →
          frameStep g i = (handleInput g i.evs i.mouse i.food1, 0) ∧
            (handleInput g i.evs i.mouse i.food1).frameCount = g.frameCount) ∧
      (∀ (g : Game) (evs : List Ev) (mouse : ℤ × ℤ) (f : Pos),
        ¬g.state = Mode.playing → (handleInput g evs mouse f).state = Mode.playing →
          (handleInput g evs mouse f).frameCount = 0) ∧
      (∀ (g : Game) (i1 : FrameIn) (l : List FrameIn) (i6 : FrameIn),
        ¬g.state = Mode.playing →
          (handleInput g i1.evs i1.mouse i1.food1).state = Mode.playing →
          l.length = 4 →
          (frameStep g i1).2 = 0 ∧ (runFrames (frameStep g i1).1 l).2 = 0 ∧
            (frameStep (runFrames (frameStep g i1).1 l).1 i6).2 = 1) := by
  refine ⟨rfl, ?_, ?_, ?_, ?_⟩
  · intro g i hp
    show frameTick (handleInput g i.evs i.mouse i.food1) i.food2 = _
    exact frameTick_playing _ _ hp
  · intro g i hnp
    constructor
    · show frameTick (handleInput g i.evs i.mouse i.food1) i.food2 = _
      exact frameTick_notPlaying _ _ hnp
    · rcases handleInput_stateFrame g i.evs i.mouse i.food1 with ⟨_, hb⟩ | ⟨ha, _⟩
      · exact hb
      · exact absurd ha hnp
  · intro g evs mouse f hnp hp
    rcases handleInput_stateFrame g evs mouse f with ⟨ha, _⟩ | ⟨_, hb⟩
    · rw [ha] at hp
      exact absurd hp hnp
    · exact hb
  · intro g i1 l i6 hnp hp1 hlen
    have hc0 : (handleInput g i1.evs i1.mouse i1.food1).frameCount = 0 := by
      rcases handleInput_stateFrame g i1.evs i1.mouse i1.food1 with ⟨ha, _⟩ | ⟨_, hb⟩
      · rw [ha] at hp1
        exact absurd hp1 hnp
      · exact hb
    have ht := frameTick_playing (handleInput g i1.evs i1.mouse i1.food1) i1.food2 hp1
    rw [hc0] at ht
    rw [if_neg (by decide)] at ht
    have hts : frameStep g i1 =
        ({ handleInput g i1.evs i1.mouse i1.food1 with frameCount := 0 + 1 }, 0) := by
      show frameTick (handleInput g i1.evs i1.mouse i1.food1) i1.food2 = _
      exact ht
    have hq1 : (frameStep g i1).1.state = Mode.playing := by
      rw [hts]
      exact hp1
    have hq2 : (frameStep g i1).1.frameCount = 1 := by
      rw [hts]
    have hq3 : (frameStep g i1).2 = 0 := by
      rw [hts]
    obtain ⟨h3, h4, h5⟩ := runFrames_playing l (frameStep g i1).1 hq1 (by rw [hq2, hlen])
    have h6 : (runFrames (frameStep g i1).1 l).1.frameCount = 5 := by
      rw [h4, hq2, hlen]
    refine ⟨hq3, h5, ?_⟩
    obtain ⟨nd, hIl⟩ :=
      handleInput_playing (runFrames (frameStep g i1).1 l).1 i6.evs i6.mouse i6.food1 h3
    have hp6 : (handleInput (runFrames (frameStep g i1).1 l).1 i6.evs i6.mouse
        i6.food1).state = Mode.playing := by
      rw [hIl]
      exact h3
    have hc6 : (handleInput (runFrames (frameStep g i1).1 l).1 i6.evs i6.mouse
        i6.food1).frameCount = 5 := by
      rw [hIl]
      exact h6
    show (frameTick (handleInput (runFrames (frameStep g i1).1 l).1 i6.evs i6.mouse
      i6.food1) i6.food2).2 = 1
    rw [frameTick_playing _ _ hp6, hc6, if_pos (by decide)]

/-- Witness for C8: starting from the menu, a click-to-start frame and the
four frames after it step zero times and the sixth frame steps once; a
frame polled in the menu without a start input leaves the counter alone
and steps zero times. -/
theorem c8_simulation_clock_witness :
    ((¬(initGame (0, 0)).state = Mode.playing ∧
        (handleInput (initGame (0, 0)) [Ev.mousebuttondown] (310, 0) (0, 19)).state =
          Mode.playing) ∧
      (frameStep (initGame (0, 0)) ⟨[Ev.mousebuttondown], (310, 0), (0, 19), (0, 19)⟩).2 = 0 ∧
        (runFrames
          (frameStep (initGame (0, 0)) ⟨[Ev.mousebuttondown], (310, 0), (0, 19), (0, 19)⟩).1
          (List.replicate 4 ⟨[], (310, 0), (0, 19), (0, 19)⟩)).2 = 0 ∧
        (frameStep
          (runFrames
            (frameStep (initGame (0, 0)) ⟨[Ev.mousebuttondown], (310, 0), (0, 19), (0, 19)⟩).1
            (List.replicate 4 ⟨[], (310, 0), (0, 19), (0, 19)⟩)).1
          ⟨[], (310, 0), (0, 19), (0, 19)⟩).2 = 1) ∧
      ((¬(handleInput (initGame (0, 0)) [] (310, 0) (0, 19)).state = Mode.playing) ∧
        frameStep (initGame (0, 0)) ⟨[], (310, 0), (0, 19), (0, 19)⟩ =
            (handleInput (initGame (0, 0)) [] (310, 0) (0, 19), 0) ∧
          (handleInput (initGame (0, 0)) [] (310, 0) (0, 19)).frameCount =
            (initGame (0, 0)).frameCount) :=
  ⟨⟨⟨by decide, by decide⟩,
      c8_simulation_clock.2.2.2.2 (initGame (0, 0))
        ⟨[Ev.mousebuttondown], (310, 0), (0, 19), (0, 19)⟩
        (List.replicate 4 ⟨[], (310, 0), (0, 19), (0, 19)⟩)
        ⟨[], (310, 0), (0, 19), (0, 19)⟩ (by decide) (by decide) rfl⟩,
    ⟨by decide,
      c8_simulation_clock.2.2.1 (initGame (0, 0)) ⟨[], (310, 0), (0, 19), (0, 19)⟩
        (by decide)⟩⟩

/-- C10: while playing, the pointer channel emits a vote on every poll
(there is no dead zone): after the event loop of a poll, whenever the
pointer's dominant-axis vote is not the exact reverse of the current
direction, the pending direction ends up equal to that vote, overwriting
any keyboard vote of the same poll.  A pointer exactly at the head's pixel
center (`dx = 0` and `dy = 0`) votes `(0, -1)`, i.e. up. -/
theorem c10_pointer_every_poll (g : Game) (evs : List Ev) (mouse : ℤ × ℤ) (f : Pos)
    (hp : (processEvents g evs f).state = Mode.playing)
    (hv : mouseVote (processEvents g evs f).snake.headI mouse ≠
      (-(processEvents g evs f).direction.1, -(processEvents g evs f).direction.2)) :
    (handleInput g evs mouse f).nextDirection =
        mouseVote (processEvents g evs f).snake.headI mouse ∧
      ∀ head : Pos,
        mouseVote head (head.1 * cellSize + cellSize / 2, head.2 * cellSize + cellSize / 2) =
          (0, -1) := by
  constructor
  · unfold handleInput
    dsimp only
    rw [if_pos hp, if_pos hv]
  · intro head
    unfold mouseVote
    dsimp only
    rw [sub_self, sub_self]
    norm_num

/-- Witness for C10 on a poll that starts the game by mouse click with the
pointer far to the right of the head. -/
theorem c10_pointer_every_poll_witness :
    ((processEvents (initGame (0, 0)) [Ev.mousebuttondown] (0, 19)).state = Mode.playing ∧
        mouseVote (processEvents (initGame (0, 0)) [Ev.mousebuttondown]
            (0, 19)).snake.headI (1000, 210) ≠
          (-(processEvents (initGame (0, 0)) [Ev.mousebuttondown] (0, 19)).direction.1,
            -(processEvents (initGame (0, 0)) [Ev.mousebuttondown] (0, 19)).direction.2)) ∧
      (handleInput (initGame (0, 0)) [Ev.mousebuttondown] (1000, 210) (0, 19)).nextDirection =
          mouseVote (processEvents (initGame (0, 0)) [Ev.mousebuttondown]
            (0, 19)).snake.headI (1000, 210) ∧
        ∀ head : Pos,
          mouseVote head
              (head.1 * cellSize + cellSize / 2, head.2 * cellSize + cellSize / 2) =
            (0, -1) :=
  ⟨⟨by decide, by decide⟩,
    c10_pointer_every_poll (initGame (0, 0)) [Ev.mousebuttondown] (1000, 210) (0, 19)
      (by decide) (by decide)⟩

end SnakeV0
